import Mathlib

/-!
Shallow embedding of the per-application instance scaler
(`go/pkg/scaler/simple.go` and `go/pkg/scaler/runtimeStatus.go`).

The Go code is a concurrent state machine; here every operation is rendered
as a pure function on an explicit state, with fire-and-forget goroutines
(notify, destroy, creation) returned as explicit pending effects so that a
sequential scenario can run them at its chosen point.  Timestamps and
durations are modelled as rationals (exact arithmetic in place of Go's
`time.Duration`/`float64`, as the spec's "modulo floating-point" sanctions).
Go's aliasing, where the registry map and the idle list hold the same
`*Instance` pointer, is rendered by keeping `Instance` values in the idle
pool and mirroring every field mutation into the registry entry of the same
id.
-/

namespace ScalerModel

/-- `model.Meta`: immutable application descriptor (`Key`, `Runtime`,
`TimeoutInSecs`, `MemoryInMb`). -/
structure Meta where
  key : String
  runtime : String
  timeoutInSecs : Nat
  memoryInMb : Nat
deriving Repr, DecidableEq

/-- `model.Slot`: platform resource handle. -/
structure Slot where
  id : String
  memoryInMegabytes : Nat
deriving Repr, DecidableEq

/-- `model.Instance`: warm execution unit.  `lastIdleTime` is a rational
timestamp standing for Go's `time.Time`. -/
structure Instance where
  id : String
  slot : Slot
  meta : Meta
  initDurationInMs : Nat
  busy : Bool
  lastIdleTime : ℚ
deriving Repr, DecidableEq

/-- Registry lookup, Go's `s.instances[instanceId]` returning `nil` on a
miss (modelled as `none`). -/
def lookupInstance : List (String × Instance) → String → Option Instance
  | [], _ => none
  | (k, v) :: rest, i => if k = i then some v else lookupInstance rest i

/-- Mirror of a field mutation through the shared `*Instance` pointer: the
registry entry of that id (when present) is overwritten with the new value. -/
def updateInstance (reg : List (String × Instance)) (i : String) (inst : Instance) :
    List (String × Instance) :=
  reg.map (fun p => (p.1, if p.1 = i then inst else p.2))

/-- Go map assignment `s.instances[id] = inst`. -/
def insertInstance (reg : List (String × Instance)) (i : String) (inst : Instance) :
    List (String × Instance) :=
  if (lookupInstance reg i).isSome then updateInstance reg i inst else reg ++ [(i, inst)]

/-- Go map deletion `delete(s.instances, id)`. -/
def removeInstance (reg : List (String × Instance)) (i : String) :
    List (String × Instance) :=
  reg.filter (fun p => p.1 ≠ i)

/-- The mutable state of one `Simple` scaler: the instance registry
(`instances`), the idle pool (`idleInstance`, front = MRU), the waiter queue
(`longPollingList`, front = oldest, each waiter identified by its channel),
and the in-flight creation count (`creatingNum`). -/
structure SimpleState where
  instances : List (String × Instance)
  idleInstance : List Instance
  longPollingList : List Nat
  creatingNum : Int
deriving Repr, DecidableEq

/-- `Simple.notifyRequest`: pop the front waiter and hand it the instance
(returned as `some (waiter, instance)`); with no waiter, clear `Busy`, stamp
`LastIdleTime` and push the instance to the front of the idle pool. -/
def notifyRequest (now : ℚ) (inst : Instance) (s : SimpleState) :
    SimpleState × Option (Nat × Instance) :=
  match s.longPollingList with
  | w :: rest => ({ s with longPollingList := rest }, some (w, inst))
  | [] =>
    let freed : Instance := { inst with busy := false, lastIdleTime := now }
    ({ s with
        instances := updateInstance s.instances inst.id freed,
        idleInstance := freed :: s.idleInstance }, none)

/-- The `pb.Assignment` carried in an `AssignReply`. -/
structure Assignment where
  requestId : String
  metaKey : String
  instanceId : String
deriving Repr, DecidableEq

/-- Outcome of the synchronous part of `Simple.Assign`: either an immediate
hit on the idle pool, or a miss that enqueued waiter channel `waiterId` and
spawned (`creationSpawned`) at most one asynchronous `createInstance`. -/
inductive AssignOutcome where
  | hit (a : Assignment)
  | miss (waiterId : Nat) (creationSpawned : Bool)
deriving Repr, DecidableEq

/-- `Simple.Assign` up to its blocking `select`: pop the front (MRU) idle
instance and mark it busy, or append a fresh waiter channel to the back of
the queue and spawn a creation iff the queue length now exceeds
`creatingNum`. -/
def Assign (requestId : String) (freshChan : Nat) (s : SimpleState) :
    SimpleState × AssignOutcome :=
  match s.idleInstance with
  | inst :: rest =>
    let busyInst : Instance := { inst with busy := true }
    ({ s with
        idleInstance := rest,
        instances := updateInstance s.instances inst.id busyInst },
     .hit { requestId := requestId, metaKey := inst.meta.key, instanceId := inst.id })
  | [] =>
    let queue := s.longPollingList ++ [freshChan]
    let spawned : Bool := decide ((queue.length : Int) > s.creatingNum)
    ({ s with longPollingList := queue }, .miss freshChan spawned)

/-- One recorded `platformClient.DestroySLot` invocation.  `deadlineSecs`
is the timeout of the context it is called with (`some 30` on the GC path,
`none` when the caller's context is used). -/
structure DestroyCall where
  requestId : String
  slotId : String
  instanceId : String
  metaKey : String
  reason : String
  deadlineSecs : Option Nat
deriving Repr, DecidableEq

/-- gRPC status of an `IdleReply`. -/
inductive IdleResult where
  | ok
  | invalidArgument
  | notFound
deriving Repr, DecidableEq

/-- The reply of `Simple.Idle` together with its pending fire-and-forget
effects: the deferred `deleteSlot` call (when `NeedDestroy`) and the
asynchronous `notifyRequest` goroutine argument. -/
structure IdleEffects where
  result : IdleResult
  destroy : Option DestroyCall
  notify : Option Instance
deriving Repr, DecidableEq

/-- `Simple.Idle`.  A `none` assignment yields invalid-argument (the spawned
`IdleStart` goroutine would additionally nil-dereference, a concurrent
process crash outside this sequential rendering).  An unknown instance yields
not-found, with the deferred destroy still firing on an empty slot id when
`NeedDestroy` was set.  A registered instance yields success: the destroy
path captures the slot id and never touches the registry or the pool; an
already-idle instance is a no-op; a busy one is handed to `notifyRequest`.
The scaler state itself is unmodified, matching the source, where every
mutation happens in the spawned goroutines. -/
def Idle (assigment : Option Assignment) (needDestroy : Bool) (s : SimpleState) :
    SimpleState × IdleEffects :=
  match assigment with
  | none => (s, { result := .invalidArgument, destroy := none, notify := none })
  | some a =>
    match lookupInstance s.instances a.instanceId with
    | some inst =>
      if needDestroy then
        (s, { result := .ok,
              destroy := some { requestId := a.requestId, slotId := inst.slot.id,
                                instanceId := a.instanceId, metaKey := a.metaKey,
                                reason := "bad instance", deadlineSecs := none },
              notify := none })
      else if !inst.busy then
        (s, { result := .ok, destroy := none, notify := none })
      else
        (s, { result := .ok, destroy := none, notify := some inst })
    | none =>
      (s, { result := .notFound,
            destroy :=
              if needDestroy then
                some { requestId := a.requestId, slotId := "", instanceId := a.instanceId,
                       metaKey := a.metaKey, reason := "bad instance", deadlineSecs := none }
              else none,
            notify := none })

/-- A quiescent `Idle`: the call followed by the completion of the notify
goroutine it spawned, if any ("no concurrent activity"). -/
def idleThenNotify (now : ℚ) (assigment : Option Assignment) (needDestroy : Bool)
    (s : SimpleState) : SimpleState :=
  let step := Idle assigment needDestroy s
  match step.2.notify with
  | some inst => (notifyRequest now inst step.1).1
  | none => step.1

/-- The destroy call the GC emits for an expired instance: a fresh uuid as
request id (modelled by the placeholder `"uuid"`), a reason quoting the
observed and configured durations, and a 30-second context deadline. -/
def mkGcDestroy (inst : Instance) (idleDuration configDuration : ℚ) : DestroyCall :=
  { requestId := "uuid", slotId := inst.slot.id, instanceId := inst.id,
    metaKey := inst.meta.key,
    reason := "Idle duration: " ++ toString idleDuration
      ++ "s, excceed configured duration: " ++ toString configDuration ++ "s",
    deadlineSecs := some 30 }

/-- The inner loop of `Simple.gcLoop` for one tick, at clock `now`.  The Go
loop repeatedly inspects `idleInstance.Back()`; here the pool is passed
reversed so the back of the list is the head of the argument.  While the back
instance has `now - LastIdleTime > IdleDurationBeforeGC` it is removed from
the pool and the registry and a `DestroySlot` call is emitted; the loop stops
at the first non-expired back instance (or an empty pool). -/
def gcScan (now dur : ℚ) (reg : List (String × Instance)) :
    List Instance → List (String × Instance) × List Instance × List DestroyCall
  | [] => (reg, [], [])
  | inst :: rest =>
    if now - inst.lastIdleTime > dur then
      let next := gcScan now dur (removeInstance reg inst.id) rest
      (next.1, next.2.1, mkGcDestroy inst (now - inst.lastIdleTime) dur :: next.2.2)
    else (reg, inst :: rest, [])

/-- One tick of `Simple.gcLoop` over the scaler state, at clock `now` and
with configured idle TTL `dur`. -/
def gcLoopOnce (now dur : ℚ) (s : SimpleState) : SimpleState × List DestroyCall :=
  let scan := gcScan now dur s.instances s.idleInstance.reverse
  ({ s with instances := scan.1, idleInstance := scan.2.1.reverse }, scan.2.2)

/-- `RuntimeStatus` (the union of the fields of `runtimeStatus.go` and the
extended estimator in `simple.go`): the request-duration map, the EWMA
`requestCostTime` with smoothing factor `rctRate`, the in-flight start-time
list `requestInstance` and the high-watermark `maxRequestNum`. -/
structure RuntimeStatus where
  requestDuration : List (String × ℚ)
  requestCostTime : ℚ
  rctRate : ℚ
  requestInstance : List ℚ
  maxRequestNum : Int
deriving Repr, DecidableEq

/-- `NewRuntimeStatus`: empty maps and lists, `rctRate` set to its `0.9`
default. -/
def NewRuntimeStatus : RuntimeStatus :=
  { requestDuration := [], requestCostTime := 0, rctRate := 9 / 10,
    requestInstance := [], maxRequestNum := 0 }

/-- Go map read `r.requestDuration[requestId]`, yielding the zero time on a
miss. -/
def lookupDuration : List (String × ℚ) → String → ℚ
  | [], _ => 0
  | (k, v) :: rest, i => if k = i then v else lookupDuration rest i

/-- Go map assignment `r.requestDuration[requestId] = now`. -/
def insertDuration (m : List (String × ℚ)) (i : String) (t : ℚ) : List (String × ℚ) :=
  if (m.map Prod.fst).contains i then m.map (fun p => (p.1, if p.1 = i then t else p.2))
  else m ++ [(i, t)]

/-- `RuntimeStatus.AssignReturn`: record the moment Assign returned. -/
def AssignReturn (now : ℚ) (requestId : String) (r : RuntimeStatus) : RuntimeStatus :=
  { r with requestDuration := insertDuration r.requestDuration requestId now }

/-- `RuntimeStatus.IdleStart`: measure `duration = now - requestDuration[id]`
and fold it into `requestCostTime`, seeding it on the `== 0` guard and
applying `rctRate * old + (1 - rctRate) * duration` otherwise. -/
def IdleStart (now : ℚ) (requestId : String) (r : RuntimeStatus) : RuntimeStatus :=
  let duration := now - lookupDuration r.requestDuration requestId
  if r.requestCostTime = 0 then { r with requestCostTime := duration }
  else { r with requestCostTime :=
      r.rctRate * r.requestCostTime + (1 - r.rctRate) * duration }

/-- `RuntimeStatus.GetRequestCostTime`. -/
def GetRequestCostTime (r : RuntimeStatus) : ℚ := r.requestCostTime

/-- The pruning loop of `RuntimeStatus.AssignStart`, walking the in-flight
list (which already ends with the pushed `t`) from the front until the entry
equal to `t`.  In the source, removing the current element with
`container/list.Remove` nils out that element's links, so the subsequent
`element = element.Next()` yields `nil` and the next loop condition
dereferences a nil pointer: `none` models that panic. -/
def scanRemove (now rct t : ℚ) : List ℚ → Option (List ℚ)
  | [] => some []
  | v :: rest =>
    if v = t then some (v :: rest)
    else if now - v > rct then none
    else (scanRemove now rct t rest).map (fun rest' => v :: rest')

/-- `RuntimeStatus.AssignStart` at clock `now` with argument `t`: push `t`
to the back of the in-flight list, run the pruning scan (whose
iterator-invalidation panic propagates as `none`), and raise
`maxRequestNum` to the resulting length. -/
def AssignStart (now t : ℚ) (r : RuntimeStatus) : Option RuntimeStatus :=
  let rct := GetRequestCostTime r
  match scanRemove now rct t (r.requestInstance ++ [t]) with
  | none => none
  | some lst =>
    some { r with requestInstance := lst,
                  maxRequestNum := max r.maxRequestNum (lst.length : Int) }

/-- One recorded `platformClient.CreateSlot` invocation with its
`SlotResourceConfig`. -/
structure CreateSlotCall where
  requestId : String
  memoryInMegabytes : Nat
deriving Repr, DecidableEq

/-- Modelled from the spec: `platform_client.Init` is outside `src/`; per
section 6 it returns the warm `Instance` for the given id, slot and meta,
carrying `InitDurationInMs`.  A fresh instance is not yet busy and has no
idle timestamp. -/
def platformInit (instanceId : String) (slot : Slot) (meta : Meta)
    (initDurationInMs : Nat) : Instance :=
  { id := instanceId, slot := slot, meta := meta,
    initDurationInMs := initDurationInMs, busy := false, lastIdleTime := 0 }

/-- What one (completed) `Simple.createInstance` call did: the `CreateSlot`
calls it issued, the meta it passed to `Init` (when `CreateSlot` succeeded),
the instance it registered (when `Init` also succeeded) and the pending
notify goroutine argument. -/
structure CreateOutcome where
  createSlotCalls : List CreateSlotCall
  initMeta : Option Meta
  registered : Option Instance
  notify : Option Instance
deriving Repr, DecidableEq

/-- `Simple.createInstance`, with the platform's answers supplied as inputs
(`slotResult` for `CreateSlot`, `initOk` plus `initDurationInMs` for `Init`,
`freshInstanceId` for the generated uuid).  The resource config passed to
`CreateSlot` carries the request's `MemoryInMb`; the meta passed to `Init`
copies only `Key`, `Runtime` and `TimeoutInSecs`, leaving `MemoryInMb` at
its zero value.  `creatingNum` is incremented on entry and decremented on
every exit, so a completed call leaves it unchanged. -/
def createInstance (requestMeta : Meta) (requestId : String) (freshInstanceId : String)
    (slotResult : Option Slot) (initOk : Bool) (initDurationInMs : Nat)
    (s : SimpleState) : SimpleState × CreateOutcome :=
  let call : CreateSlotCall :=
    { requestId := requestId, memoryInMegabytes := requestMeta.memoryInMb }
  match slotResult with
  | none =>
    (s, { createSlotCalls := [call], initMeta := none, registered := none, notify := none })
  | some slot =>
    let meta : Meta :=
      { key := requestMeta.key, runtime := requestMeta.runtime,
        timeoutInSecs := requestMeta.timeoutInSecs, memoryInMb := 0 }
    if initOk then
      let inst := platformInit freshInstanceId slot meta initDurationInMs
      ({ s with instances := insertInstance s.instances inst.id inst },
       { createSlotCalls := [call], initMeta := some meta,
         registered := some inst, notify := some inst })
    else
      (s, { createSlotCalls := [call], initMeta := some meta,
            registered := none, notify := none })

/-- A sequence of completed Assign/Idle pairs driven through the estimator:
each pair records its Assign return at time 0 and its Idle start at time
`d`, so the measured duration of the pair is `d`. -/
def runPairs : RuntimeStatus → List ℚ → RuntimeStatus
  | r, [] => r
  | r, d :: ds => runPairs (IdleStart d "req" (AssignReturn 0 "req" r)) ds

/-- The claim's update formula: `rate * old + (1 - rate) * duration`. -/
def ewmaStep (rate e d : ℚ) : ℚ := rate * e + (1 - rate) * d

/-- The claim's EWMA of a duration sequence: the first duration seeds the
average and every later one is folded in by `ewmaStep`. -/
def specEwma (rate : ℚ) : List ℚ → ℚ
  | [] => 0
  | d :: ds => ds.foldl (ewmaStep rate) d

/-! ### Concrete fixtures used by witnesses and counterexamples -/

def slotA : Slot := { id := "slot1", memoryInMegabytes := 128 }

def metaA : Meta := { key := "app", runtime := "go1", timeoutInSecs := 10, memoryInMb := 128 }

def instA : Instance :=
  { id := "i1", slot := slotA, meta := metaA, initDurationInMs := 5,
    busy := true, lastIdleTime := 0 }

def instIdleA : Instance :=
  { id := "i1", slot := slotA, meta := metaA, initDurationInMs := 5,
    busy := false, lastIdleTime := 0 }

def stateBusyA : SimpleState :=
  { instances := [("i1", instA)], idleInstance := [], longPollingList := [],
    creatingNum := 0 }

def stateIdleA : SimpleState :=
  { instances := [("i1", instIdleA)], idleInstance := [instIdleA],
    longPollingList := [], creatingNum := 0 }

def stateEmpty : SimpleState :=
  { instances := [], idleInstance := [], longPollingList := [], creatingNum := 0 }

def assignA : Assignment := { requestId := "r1", metaKey := "app", instanceId := "i1" }

/-- The estimator state of C8's failing input: one in-flight entry at time 0
and `requestCostTime` of 5. -/
def rsStale : RuntimeStatus :=
  { requestDuration := [], requestCostTime := 5, rctRate := 9 / 10,
    requestInstance := [0], maxRequestNum := 1 }

/-! ### Registry and duration-map lemmas -/

theorem lookup_update_self {reg : List (String × Instance)} {i : String}
    {x v : Instance} (h : lookupInstance reg i = some x) :
    lookupInstance (updateInstance reg i v) i = some v := by
  induction reg with
  | nil => simp [lookupInstance] at h
  | cons p rest ih =>
    obtain ⟨k, w⟩ := p
    by_cases hk : k = i
    · subst hk
      simp [lookupInstance, updateInstance]
    · simp only [lookupInstance, if_neg hk] at h
      simpa [lookupInstance, updateInstance, hk] using ih h

theorem lookup_append_of_none {reg : List (String × Instance)} {i : String}
    (h : lookupInstance reg i = none) (l2 : List (String × Instance)) :
    lookupInstance (reg ++ l2) i = lookupInstance l2 i := by
  induction reg with
  | nil => rfl
  | cons p rest ih =>
    obtain ⟨k, w⟩ := p
    by_cases hk : k = i
    · simp [lookupInstance, hk] at h
    · simp only [lookupInstance, if_neg hk] at h
      simpa [lookupInstance, hk] using ih h

theorem lookup_insert_self (reg : List (String × Instance)) (i : String) (v : Instance) :
    lookupInstance (insertInstance reg i v) i = some v := by
  unfold insertInstance
  cases h : lookupInstance reg i with
  | some x => simp only [h, Option.isSome_some, if_pos]; exact lookup_update_self h
  | none =>
    simp only [h, Option.isSome_none, Bool.false_eq_true, if_neg, not_false_iff]
    rw [lookup_append_of_none h]
    simp [lookupInstance]

theorem lookup_remove_self (reg : List (String × Instance)) (i : String) :
    lookupInstance (removeInstance reg i) i = none := by
  induction reg with
  | nil => rfl
  | cons p rest ih =>
    obtain ⟨k, w⟩ := p
    by_cases hk : k = i
    · simpa [removeInstance, hk] using ih
    · simpa [removeInstance, lookupInstance, hk] using ih

theorem lookup_remove_none {reg : List (String × Instance)} {i : String}
    (x : String) (h : lookupInstance reg i = none) :
    lookupInstance (removeInstance reg x) i = none := by
  induction reg with
  | nil => rfl
  | cons p rest ih =>
    obtain ⟨k, w⟩ := p
    by_cases hk : k = i
    · simp [lookupInstance, hk] at h
    · simp only [lookupInstance, if_neg hk] at h
      by_cases hx : k = x
      · simpa [removeInstance, lookupInstance, hx] using ih h
      · simpa [removeInstance, lookupInstance, hx, hk] using ih h

/-! ### C2: the notify handoff -/

/-- C2: for every instance handed to `notifyRequest`, with a non-empty
waiter queue the front (oldest) waiter is dequeued and receives the instance
and the idle pool is untouched; with an empty queue the instance re-enters
the front of the idle pool with `Busy` cleared and `LastIdleTime` stamped
`now`, and no waiter receives anything. -/
theorem notifyRequest_spec (now : ℚ) (inst : Instance) (s : SimpleState) :
    (∀ w rest, s.longPollingList = w :: rest →
        (notifyRequest now inst s).2 = some (w, inst)
        ∧ (notifyRequest now inst s).1.longPollingList = rest
        ∧ (notifyRequest now inst s).1.idleInstance = s.idleInstance
        ∧ (notifyRequest now inst s).1.instances = s.instances)
    ∧ (s.longPollingList = [] →
        (notifyRequest now inst s).2 = none
        ∧ (notifyRequest now inst s).1.idleInstance =
            { inst with busy := false, lastIdleTime := now } :: s.idleInstance) := by
  constructor
  · intro w rest h
    simp [notifyRequest, h]
  · intro h
    simp [notifyRequest, h]

/-- Witness for C2 at concrete inputs: a queued waiter `3` receives the
instance, and with no waiter the instance is pushed idle. -/
theorem notifyRequest_spec_witness :
    (notifyRequest 7 instA
        { instances := [("i1", instA)], idleInstance := [],
          longPollingList := [3], creatingNum := 0 }).2 = some (3, instA)
    ∧ (notifyRequest 7 instA stateBusyA).2 = none := by
  refine ⟨?_, ?_⟩
  · exact ((notifyRequest_spec 7 instA _).1 3 [] rfl).1
  · exact ((notifyRequest_spec 7 instA stateBusyA).2 rfl).1

/-! ### C3: the creation trigger on an Assign miss -/

/-- C3: an `Assign` that misses the idle pool appends its fresh waiter
channel to the back of the queue and spawns an asynchronous creation iff the
queue length (with the new waiter counted) exceeds `creatingNum` at that
moment; a single call spawns at most that one creation. -/
theorem Assign_miss_spawn (requestId : String) (w : Nat) (s : SimpleState)
    (h : s.idleInstance = []) :
    (Assign requestId w s).1.longPollingList = s.longPollingList ++ [w]
    ∧ ((Assign requestId w s).2 = .miss w true ↔
        ((s.longPollingList.length + 1 : Int) > s.creatingNum))
    ∧ (Assign requestId w s).2 =
        .miss w (decide ((s.longPollingList.length + 1 : Int) > s.creatingNum)) := by
  refine ⟨by simp [Assign, h], ?_, by simp [Assign, h]⟩
  simp [Assign, h]

/-- Witness for C3: on an empty scaler the first miss enqueues waiter `4`
and spawns a creation, since the queue length 1 exceeds `creatingNum = 0`. -/
theorem Assign_miss_spawn_witness :
    (Assign "r1" 4 stateEmpty).1.longPollingList = [4]
    ∧ (Assign "r1" 4 stateEmpty).2 = .miss 4 true := by
  have h := Assign_miss_spawn "r1" 4 stateEmpty rfl
  exact ⟨h.1, h.2.1.mpr (by decide)⟩

/-! ### C6: Idle status results -/

/-- C6: `Idle` yields invalid-argument exactly for a nil assignment,
not-found exactly for an assignment naming an unregistered instance id, and
success in every other case. -/
theorem Idle_status_spec (a : Option Assignment) (nd : Bool) (s : SimpleState) :
    ((Idle a nd s).2.result = .invalidArgument ↔ a = none)
    ∧ ((Idle a nd s).2.result = .notFound ↔
        ∃ x, a = some x ∧ lookupInstance s.instances x.instanceId = none)
    ∧ ((Idle a nd s).2.result = .ok ↔
        ∃ x, a = some x ∧ lookupInstance s.instances x.instanceId ≠ none) := by
  cases a with
  | none => simp [Idle]
  | some x =>
    cases h : lookupInstance s.instances x.instanceId with
    | none => simp [Idle, h]
    | some inst =>
      by_cases hnd : nd
      · simp [Idle, h, hnd]
      · by_cases hb : inst.busy <;> simp [Idle, h, hnd, hb]

/-- Witness for C6: a nil assignment is rejected as invalid-argument on a
concrete state. -/
theorem Idle_status_spec_witness :
    (Idle none false stateBusyA).2.result = .invalidArgument := by
  exact (Idle_status_spec none false stateBusyA).1.mpr rfl

/-! ### C9: destroy on an unknown instance -/

/-- C9: `Idle` with `NeedDestroy` for an unregistered instance id returns
not-found, yet the deferred destroy path still invokes `DestroySlot` with an
empty slot id and reason "bad instance". -/
theorem Idle_destroy_notFound (a : Assignment) (s : SimpleState)
    (h : lookupInstance s.instances a.instanceId = none) :
    (Idle (some a) true s).2.result = .notFound
    ∧ (Idle (some a) true s).2.destroy =
        some { requestId := a.requestId, slotId := "", instanceId := a.instanceId,
               metaKey := a.metaKey, reason := "bad instance", deadlineSecs := none } := by
  simp [Idle, h]

/-- Witness for C9: destroying the unknown instance `i1` on an empty scaler
returns not-found and fires `DestroySlot` with an empty slot id. -/
theorem Idle_destroy_notFound_witness :
    (Idle (some assignA) true stateEmpty).2.result = .notFound
    ∧ (Idle (some assignA) true stateEmpty).2.destroy =
        some { requestId := "r1", slotId := "", instanceId := "i1",
               metaKey := "app", reason := "bad instance", deadlineSecs := none } := by
  exact Idle_destroy_notFound assignA stateEmpty rfl

/-! ### C1: destroy of a registered instance -/

/-- C1 counterexample: `Idle` with `NeedDestroy` on the registered busy
instance `i1` returns success, but afterwards `i1` is still present in the
registry — the claim's "the instance is removed from the registry" would
make this lookup `none`. -/
theorem Idle_destroy_registry_cex :
    (Idle (some assignA) true stateBusyA).2.result = .ok
    ∧ lookupInstance (Idle (some assignA) true stateBusyA).1.instances "i1" = some instA
    ∧ lookupInstance (Idle (some assignA) true stateBusyA).1.instances "i1" ≠ none := by
  refine ⟨rfl, rfl, by simp [Idle, stateBusyA, assignA, lookupInstance, instA]⟩

/-- C1 amended: `Idle` with `NeedDestroy` on a registered instance returns
success, invokes `DestroySlot` on the instance's slot with reason
"bad instance", and never hands the instance to notify, so it reaches
neither a waiter nor the idle pool, and a subsequent `Assign` against a
still-empty idle pool takes the miss path (triggering a fresh creation)
instead of reusing it; the instance however remains in the registry. -/
theorem Idle_destroy_amended (a : Assignment) (inst : Instance) (s : SimpleState)
    (hlook : lookupInstance s.instances a.instanceId = some inst) :
    (Idle (some a) true s).2.result = .ok
    ∧ (Idle (some a) true s).2.destroy =
        some { requestId := a.requestId, slotId := inst.slot.id,
               instanceId := a.instanceId, metaKey := a.metaKey,
               reason := "bad instance", deadlineSecs := none }
    ∧ (Idle (some a) true s).2.notify = none
    ∧ (Idle (some a) true s).1 = s
    ∧ lookupInstance (Idle (some a) true s).1.instances a.instanceId = some inst
    ∧ (s.idleInstance = [] → ∀ r2 w,
        (Assign r2 w (Idle (some a) true s).1).2 =
          .miss w (decide ((s.longPollingList.length + 1 : Int) > s.creatingNum))) := by
  refine ⟨by simp [Idle, hlook], by simp [Idle, hlook], by simp [Idle, hlook],
    by simp [Idle, hlook], ?_, ?_⟩
  · simp [Idle, hlook]
  · intro hpool r2 w
    have hstate : (Idle (some a) true s).1 = s := by simp [Idle, hlook]
    rw [hstate]
    exact (Assign_miss_spawn r2 w s hpool).2.2

/-- Witness for C1's amended theorem at the concrete busy instance `i1`. -/
theorem Idle_destroy_amended_witness :
    (Idle (some assignA) true stateBusyA).2.result = .ok
    ∧ (Idle (some assignA) true stateBusyA).2.destroy =
        some { requestId := "r1", slotId := "slot1", instanceId := "i1",
               metaKey := "app", reason := "bad instance", deadlineSecs := none }
    ∧ (Idle (some assignA) true stateBusyA).2.notify = none
    ∧ (Idle (some assignA) true stateBusyA).1 = stateBusyA
    ∧ lookupInstance (Idle (some assignA) true stateBusyA).1.instances "i1" = some instA
    ∧ (Assign "r2" 9 (Idle (some assignA) true stateBusyA).1).2 = .miss 9 true := by
  have h := Idle_destroy_amended assignA instA stateBusyA rfl
  exact ⟨h.1, h.2.1, h.2.2.1, h.2.2.2.1, h.2.2.2.2.1, h.2.2.2.2.2 rfl "r2" 9⟩

/-! ### C8: the AssignStart pruning panic -/

/-- C8: at clock 100, `AssignStart(100)` finds the in-flight entry 0 stale
(100 - 0 exceeds the cost time 5), removes it, and then follows the removed
element's nil `next` pointer: the scan panics instead of completing the
pruning and updating `maxRequestNum`. -/
theorem AssignStart_panics_on_stale : AssignStart 100 100 rsStale = none := by
  norm_num [AssignStart, rsStale, GetRequestCostTime, scanRemove]

/-! ### C5: Assign / Idle / Assign round trip -/

/-- C5: on a scaler holding exactly one idle instance and no waiters,
`Assign` hands out that instance's id; a quiescent `Idle` (followed by its
notify goroutine) returns it to the pool; and a second `Assign` hands out
the same id again. -/
theorem Assign_Idle_Assign_roundtrip (r1 rI r2 mk : String) (w1 w2 : Nat) (now : ℚ)
    (inst : Instance) (s : SimpleState)
    (hpool : s.idleInstance = [inst])
    (hq : s.longPollingList = [])
    (hlook : lookupInstance s.instances inst.id = some inst) :
    (Assign r1 w1 s).2 =
      .hit { requestId := r1, metaKey := inst.meta.key, instanceId := inst.id }
    ∧ (Assign r2 w2 (idleThenNotify now
          (some { requestId := rI, metaKey := mk, instanceId := inst.id }) false
          (Assign r1 w1 s).1)).2 =
        .hit { requestId := r2, metaKey := inst.meta.key, instanceId := inst.id } := by
  obtain ⟨reg, pool, lp, c⟩ := s
  simp only at hpool hq hlook
  subst hpool hq
  refine ⟨by simp [Assign], ?_⟩
  have h1 : lookupInstance (updateInstance reg inst.id { inst with busy := true }) inst.id
      = some { inst with busy := true } := lookup_update_self hlook
  simp [Assign, idleThenNotify, Idle, h1, notifyRequest]

/-- Witness for C5 at the concrete one-idle-instance state. -/
theorem Assign_Idle_Assign_roundtrip_witness :
    (Assign "r1" 1 stateIdleA).2 =
      .hit { requestId := "r1", metaKey := "app", instanceId := "i1" }
    ∧ (Assign "r2" 2 (idleThenNotify 9
          (some { requestId := "rI", metaKey := "app", instanceId := "i1" }) false
          (Assign "r1" 1 stateIdleA).1)).2 =
        .hit { requestId := "r2", metaKey := "app", instanceId := "i1" } := by
  exact Assign_Idle_Assign_roundtrip "r1" "rI" "r2" "app" 1 2 9 instIdleA stateIdleA
    rfl rfl rfl

/-! ### C10: the meta handed to Init omits MemoryInMb -/

/-- C10: `createInstance` passes the request's `MemoryInMb` only inside the
slot resource config given to `CreateSlot`; the meta it hands to `Init`
copies `Key`, `Runtime` and `TimeoutInSecs` and leaves `MemoryInMb` zero, so
any instance it registers has a zero `MemoryInMb` in its meta. -/
theorem createInstance_meta (requestMeta : Meta) (requestId freshId : String)
    (slotResult : Option Slot) (initOk : Bool) (initDurationInMs : Nat)
    (s : SimpleState) :
    (createInstance requestMeta requestId freshId slotResult initOk
        initDurationInMs s).2.createSlotCalls
      = [{ requestId := requestId, memoryInMegabytes := requestMeta.memoryInMb }]
    ∧ (∀ m, (createInstance requestMeta requestId freshId slotResult initOk
          initDurationInMs s).2.initMeta = some m →
        m = { key := requestMeta.key, runtime := requestMeta.runtime,
              timeoutInSecs := requestMeta.timeoutInSecs, memoryInMb := 0 })
    ∧ (∀ inst, (createInstance requestMeta requestId freshId slotResult initOk
          initDurationInMs s).2.registered = some inst →
        inst.meta.memoryInMb = 0
        ∧ lookupInstance (createInstance requestMeta requestId freshId slotResult
            initOk initDurationInMs s).1.instances inst.id = some inst) := by
  cases slotResult with
  | none => simp [createInstance]
  | some slot =>
    cases initOk with
    | false => simp [createInstance]
    | true =>
      refine ⟨by simp [createInstance], by simp [createInstance], ?_⟩
      intro inst hreg
      simp only [createInstance, if_true] at hreg ⊢
      rw [Option.some_inj] at hreg
      subst hreg
      exact ⟨rfl, lookup_insert_self _ _ _⟩

/-- Witness for C10: a concrete creation with a 128 MB request registers an
instance whose meta carries zero `MemoryInMb`. -/
theorem createInstance_meta_witness :
    (platformInit "id1" slotA
        { key := "app", runtime := "go1", timeoutInSecs := 10, memoryInMb := 0 }
        7).meta.memoryInMb = 0
    ∧ lookupInstance (createInstance metaA "r" "id1" (some slotA) true 7
        stateEmpty).1.instances "id1" = some (platformInit "id1" slotA
        { key := "app", runtime := "go1", timeoutInSecs := 10, memoryInMb := 0 } 7) := by
  exact (createInstance_meta metaA "r" "id1" (some slotA) true 7 stateEmpty).2.2 _ rfl

/-! ### C4: the GC pass -/

theorem gcScan_lookup_none (now dur : ℚ) :
    ∀ (pool : List Instance) (reg : List (String × Instance)) (i : String),
      lookupInstance reg i = none →
      lookupInstance (gcScan now dur reg pool).1 i = none := by
  intro pool
  induction pool with
  | nil =>
    intro reg i h
    simpa [gcScan] using h
  | cons inst rest ih =>
    intro reg i h
    by_cases hexp : now - inst.lastIdleTime > dur
    · simp only [gcScan, if_pos hexp]
      exact ih _ _ (lookup_remove_none inst.id h)
    · simpa [gcScan, if_neg hexp] using h

theorem gcScan_spec (now dur : ℚ) :
    ∀ (pool : List Instance) (reg : List (String × Instance)),
      ∃ dropped, pool = dropped ++ (gcScan now dur reg pool).2.1
      ∧ ∀ c ∈ (gcScan now dur reg pool).2.2,
          c.deadlineSecs = some 30
          ∧ ∃ inst, inst ∈ dropped ∧ inst.id = c.instanceId
              ∧ now - inst.lastIdleTime > dur
              ∧ lookupInstance (gcScan now dur reg pool).1 c.instanceId = none := by
  intro pool
  induction pool with
  | nil =>
    intro reg
    exact ⟨[], by simp [gcScan], by simp [gcScan]⟩
  | cons inst rest ih =>
    intro reg
    by_cases hexp : now - inst.lastIdleTime > dur
    · obtain ⟨dropped, hsplit, hcalls⟩ := ih (removeInstance reg inst.id)
      refine ⟨inst :: dropped, ?_, ?_⟩
      · simp only [gcScan, if_pos hexp]
        simpa using hsplit
      · intro c hc
        simp only [gcScan, if_pos hexp] at hc ⊢
        rcases List.mem_cons.mp hc with hceq | hctail
        · subst hceq
          refine ⟨rfl, inst, List.mem_cons_self _ _, rfl, hexp, ?_⟩
          exact gcScan_lookup_none now dur rest _ _ (lookup_remove_self reg inst.id)
        · obtain ⟨hd, inst2, hmem, hid, hexp2, hnone⟩ := hcalls c hctail
          exact ⟨hd, inst2, List.mem_cons_of_mem _ hmem, hid, hexp2, hnone⟩
    · exact ⟨[], by simp [gcScan, if_neg hexp], by simp [gcScan, if_neg hexp]⟩

/-- C4: a GC pass at clock `now` with idle TTL `dur` evicts only from the
back of the idle pool (the surviving pool is a front segment of the old
one), and every emitted `DestroySlot` call carries a 30-second deadline and
names an instance whose idle time strictly exceeded `dur`, already removed
from both the registry and the idle pool.  Instances not strictly past the
TTL are never destroyed. -/
theorem gcLoopOnce_spec (now dur : ℚ) (s : SimpleState)
    (hnd : (s.idleInstance.map (fun i => i.id)).Nodup) :
    ∃ removed, s.idleInstance = (gcLoopOnce now dur s).1.idleInstance ++ removed
    ∧ ∀ c ∈ (gcLoopOnce now dur s).2,
        c.deadlineSecs = some 30
        ∧ ∃ inst, inst ∈ removed ∧ inst.id = c.instanceId
            ∧ now - inst.lastIdleTime > dur
            ∧ lookupInstance (gcLoopOnce now dur s).1.instances c.instanceId = none
            ∧ c.instanceId ∉ (gcLoopOnce now dur s).1.idleInstance.map (fun i => i.id) := by
  obtain ⟨dropped, hsplit, hcalls⟩ := gcScan_spec now dur s.idleInstance.reverse s.instances
  have hsplit2 : s.idleInstance
      = (gcScan now dur s.instances s.idleInstance.reverse).2.1.reverse
        ++ dropped.reverse := by
    have := congrArg List.reverse hsplit
    simpa [List.reverse_append] using this
  refine ⟨dropped.reverse, hsplit2, ?_⟩
  intro c hc
  obtain ⟨hd, inst, hmem, hid, hexp, hnone⟩ := hcalls c hc
  refine ⟨hd, inst, List.mem_reverse.mpr hmem, hid, hexp, hnone, ?_⟩
  rw [hsplit2, List.map_append] at hnd
  have hdisj := (List.nodup_append.mp hnd).2.2
  intro hmem2
  exact hdisj hmem2 (by
    rw [← hid]
    exact List.mem_map_of_mem _ (List.mem_reverse.mpr hmem))

/-- Witness for C4: a pass over one instance idle since time 0 at clock 100
with TTL 3 evicts it with the 30-second-deadline destroy call. -/
theorem gcLoopOnce_spec_witness :
    ∃ removed, stateIdleA.idleInstance
        = (gcLoopOnce 100 3 stateIdleA).1.idleInstance ++ removed
    ∧ ∀ c ∈ (gcLoopOnce 100 3 stateIdleA).2,
        c.deadlineSecs = some 30
        ∧ ∃ inst, inst ∈ removed ∧ inst.id = c.instanceId
            ∧ 100 - inst.lastIdleTime > 3
            ∧ lookupInstance (gcLoopOnce 100 3 stateIdleA).1.instances c.instanceId = none
            ∧ c.instanceId ∉ (gcLoopOnce 100 3 stateIdleA).1.idleInstance.map
                (fun i => i.id) := by
  exact gcLoopOnce_spec 100 3 stateIdleA (by simp [stateIdleA])

/-! ### C7: the cost-time EWMA -/

theorem runPairs_costTime (ds : List ℚ) : ∀ (r : RuntimeStatus),
    r.rctRate = 9 / 10 →
    r.requestDuration = [("req", 0)] →
    0 < r.requestCostTime →
    (∀ d ∈ ds, 0 ≤ d) →
    (runPairs r ds).requestCostTime = ds.foldl (ewmaStep (9 / 10)) r.requestCostTime := by
  induction ds with
  | nil =>
    intro r _ _ _ _
    rfl
  | cons d ds ih =>
    intro r hrate hm hpos hnn
    have hne : r.requestCostTime ≠ 0 := ne_of_gt hpos
    have hd0 : (0 : ℚ) ≤ d := hnn d (List.mem_cons_self d ds)
    have hstep : IdleStart d "req" (AssignReturn 0 "req" r)
        = { r with
            requestDuration := [("req", 0)],
            requestCostTime := 9 / 10 * r.requestCostTime + (1 - 9 / 10) * d } := by
      simp [IdleStart, AssignReturn, insertDuration, lookupDuration, hm, hne, hrate]
    simp only [runPairs]
    rw [hstep]
    rw [ih _ (by simp [hrate]) rfl (by nlinarith) (fun e he => hnn e (List.mem_cons_of_mem _ he))]
    simp [List.foldl_cons, ewmaStep]

/-- C7 counterexample: for the measured durations 0 and 10, the first
`IdleStart` leaves `requestCostTime` at 0, so the second one retriggers the
`== 0` seeding branch and sets it to 10 outright, while the claim's EWMA
with weight 0.9 on history is 1. -/
theorem IdleStart_ewma_cex :
    (runPairs NewRuntimeStatus [0, 10]).requestCostTime = 10
    ∧ specEwma (9 / 10) [0, 10] = 1
    ∧ (runPairs NewRuntimeStatus [0, 10]).requestCostTime ≠ specEwma (9 / 10) [0, 10] := by
  norm_num [runPairs, NewRuntimeStatus, IdleStart, AssignReturn, insertDuration,
    lookupDuration, specEwma, ewmaStep]

/-- C7 amended: `rctRate` defaults to 0.9, and provided every measured
duration is positive (so that `requestCostTime` never returns to the `== 0`
seeding branch), the first `IdleStart` seeds `requestCostTime` with its
duration, every later one applies
`rctRate * requestCostTime + (1 - rctRate) * duration`, and after N
completed pairs `requestCostTime` is exactly the EWMA of the durations with
weight `rctRate` on history. -/
theorem IdleStart_ewma_amended (ds : List ℚ) (hpos : ∀ d ∈ ds, 0 < d) :
    NewRuntimeStatus.rctRate = 9 / 10
    ∧ (runPairs NewRuntimeStatus ds).requestCostTime = specEwma (9 / 10) ds := by
  refine ⟨rfl, ?_⟩
  cases ds with
  | nil => rfl
  | cons d ds =>
    have hd : 0 < d := hpos d (List.mem_cons_self d ds)
    have h1 : IdleStart d "req" (AssignReturn 0 "req" NewRuntimeStatus)
        = { NewRuntimeStatus with
              requestDuration := [("req", 0)], requestCostTime := d } := by
      simp [IdleStart, AssignReturn, NewRuntimeStatus, insertDuration, lookupDuration]
    simp only [runPairs]
    rw [h1]
    rw [runPairs_costTime ds _ rfl rfl hd
      (fun e he => le_of_lt (hpos e (List.mem_cons_of_mem _ he)))]
    rfl

/-- Witness for C7's amended theorem: durations 1 then 2 yield the EWMA. -/
theorem IdleStart_ewma_amended_witness :
    NewRuntimeStatus.rctRate = 9 / 10
    ∧ (runPairs NewRuntimeStatus [1, 2]).requestCostTime = specEwma (9 / 10) [1, 2] := by
  exact IdleStart_ewma_amended [1, 2] (by norm_num)

end ScalerModel
